import Mathlib

/-!
Verification model of the Itag finder sketch (reference variant
src/source/Itag/src/main.cpp, NimBLE based).  The per-tag table, the driver
callbacks (advertisement result, connect, disconnect, notification), the
connect routine and the main loop are embedded as pure functions over an
explicit system state.  Machine integers are modelled as Nat with explicit
reduction modulo 2^32 where the C code computes in uint32_t.  The radio
driver is an oracle: each connect attempt is given the outcomes the driver
would report (connect result, isConnected, presence of GATT services and
characteristics, canNotify, subscribe result).  Radio side effects
(scan start/stop, clearResults, connect) are recorded in an output trace.
-/

namespace ItagModel

/-- 2^32, the modulus of uint32_t arithmetic (millis timestamps). -/
def U32 : Nat := 4294967296

/-- One entry of the Itag[] table (struct itag_t), together with the
driver-side connection status of its client (pClient->isConnected()).
pRemChar is the subscribed button characteristic handle, oldmillis the
uint32 timestamp of the last accepted notification. -/
structure Tag where
  addr : String
  pRemChar : Option Nat
  advertized : Bool
  oldmillis : Nat
  connected : Bool
deriving DecidableEq, Repr

instance : Inhabited Tag := ⟨⟨"", none, false, 0, false⟩⟩

/-- Outcomes the radio driver reports during one connectToServer call:
res is the return value of pClient->connect, isConn the answer of
pClient->isConnected afterwards, battSvc/battChar the battery service and
characteristic lookups, btnSvc/btnChar the button service and
characteristic lookups, canNotify and hasDesc the characteristic
properties, subOk the result of subscribe. -/
structure DrvOutcome where
  res : Bool
  isConn : Bool
  battSvc : Bool
  battChar : Option Nat
  btnSvc : Bool
  btnChar : Option Nat
  canNotify : Bool
  hasDesc : Bool
  subOk : Bool
deriving DecidableEq, Repr

/-- Global state of the sketch: the Itag[] table, the deferred restartscan
flag, the buzzer countdown (int beeptimer) with the buzzer output, the
activity LED, and the static newcontime of loop(). -/
structure Sys where
  tags : List Tag
  restartscan : Bool
  beeptimer : Int
  buzzing : Bool
  led : Bool
  newcontime : Nat
deriving DecidableEq, Repr

/-- Radio mutating operations issued to the driver. -/
inductive RadioOp where
  | startScan
  | stopScan
  | clearResults
  | connect (addr : String)
  | disconnect
deriving DecidableEq, Repr

/-- The NOTIFY compile-time switch of the sketch (set to 1). -/
def NOTIFY : Bool := true

/-- Read entry i of the Itag table (out of range gives the default). -/
def getTag (s : Sys) (i : Nat) : Tag := s.tags.getD i default

/-- Write entry i of the Itag table. -/
def setTag (s : Sys) (i : Nat) (t : Tag) : Sys := { s with tags := s.tags.set i t }

/-- beep(duration): set the buzzer countdown and start the noise. -/
def beep (d : Int) (s : Sys) : Sys := { s with beeptimer := d, buzzing := true }

/-- handle_beeptimer(): called every 100 msec from the main loop. -/
def handle_beeptimer (s : Sys) : Sys :=
  if s.beeptimer > 0 then
    let bt := s.beeptimer - 100
    if bt ≤ 0 then { s with beeptimer := bt, buzzing := false }
    else { s with beeptimer := bt }
  else s

/-- myADC::onResult: for every advertizing device, mark each still missing
table entry with a matching address as advertized.  The callback issues no
radio operation (second component of the result). -/
def onResult (addr : String) (s : Sys) : Sys × List RadioOp :=
  ({ s with tags := s.tags.map fun t =>
      if ¬ t.advertized ∧ t.addr = addr then { t with advertized := true } else t }, [])

/-- MyClientCallbacks::onConnect: request a scan restart.  No radio
operation is issued. -/
def onConnectCB (s : Sys) : Sys × List RadioOp :=
  ({ s with restartscan := true }, [])

/-- The search loop of MyClientCallbacks::onDisconnect: clear the
advertized flag of the first table entry whose address matches (break after
the first match); no other field is touched. -/
def clearAdvFirst (addr : String) : List Tag → List Tag
  | [] => []
  | t :: ts =>
    if t.addr = addr then { t with advertized := false } :: ts
    else t :: clearAdvFirst addr ts

/-- MyClientCallbacks::onDisconnect: clear advertized of the first matching
entry and request a scan restart.  No radio operation is issued. -/
def onDisconnectCB (addr : String) (s : Sys) : Sys × List RadioOp :=
  ({ s with tags := clearAdvFirst addr s.tags, restartscan := true }, [])

/-- The debounce test of notifyCallback: newmillis > oldmillis + 500
computed in uint32_t arithmetic. -/
def debounceOk (old new_ : Nat) : Bool := decide (new_ > (old + 500) % U32)

/-- The search loop of notifyCallback: find the first entry whose pRemChar
equals the notifying characteristic, apply the debounce test, on acceptance
store the new timestamp; break after the first match.  Returns the updated
table and whether the event was accepted. -/
def notifyTags (h new_ : Nat) : List Tag → List Tag × Bool
  | [] => ([], false)
  | t :: ts =>
    if t.pRemChar = some h then
      if debounceOk t.oldmillis new_ then ({ t with oldmillis := new_ } :: ts, true)
      else (t :: ts, false)
    else
      let r := notifyTags h new_ ts
      (t :: r.1, r.2)

/-- notifyCallback: take the millis timestamp, search the table, and on an
accepted event blow the horn for the short duration (500).  No radio
operation is issued. -/
def notifyCallback (h new_ : Nat) (s : Sys) : Sys × List RadioOp :=
  let nowt := new_ % U32
  let r := notifyTags h nowt s.tags
  (if r.2 then beep 500 { s with tags := r.1 } else { s with tags := r.1 }, [])

/-- connectToServer(i) with driver outcomes d: issue the connect (the
driver runs onConnect when it establishes the link, i.e. when res holds),
record the reported connection status, and on failure return.  On success
the battery read is log-only; if the button service is found and NOTIFY is
set, pRemChar is assigned the characteristic lookup result; canNotify, the
0x2902 descriptor check and the subscribe result are log-only. -/
def connectToServer (i : Nat) (d : DrvOutcome) (s : Sys) : Sys × List RadioOp :=
  let a := (getTag s i).addr
  let s1 := if d.res then (onConnectCB s).1 else s
  let s1 := setTag s1 i { getTag s1 i with connected := d.isConn }
  if ¬ d.isConn ∨ ¬ d.res then (s1, [RadioOp.connect a])
  else
    let s2 := if d.btnSvc then
        (if NOTIFY then setTag s1 i { getTag s1 i with pRemChar := d.btnChar } else s1)
      else s1
    (s2, [RadioOp.connect a])

/-- The net effect of connectToServer on the attempted table entry. -/
def tagAfterConnect (t : Tag) (d : DrvOutcome) : Tag :=
  if ¬ d.isConn ∨ ¬ d.res then { t with connected := d.isConn }
  else if d.btnSvc ∧ NOTIFY then { t with connected := d.isConn, pRemChar := d.btnChar }
  else { t with connected := d.isConn }

/-- The for loop of loop() over the given table indices: for every
advertized entry switch the activity LED on; if it is not connected, try to
connect and blow the horn for the long duration (1000). -/
def connectLoop (drv : Nat → DrvOutcome) : List Nat → Sys → Sys × List RadioOp
  | [], s => (s, [])
  | i :: rest, s =>
    if (getTag s i).advertized then
      let s1 := { s with led := true }
      if ¬ (getTag s1 i).connected then
        let r1 := connectToServer i (drv i) s1
        let s2 := beep 1000 r1.1
        let r2 := connectLoop drv rest s2
        (r2.1, r1.2 ++ r2.2)
      else connectLoop drv rest s1
    else connectLoop drv rest s

/-- The scan restart requests serviced by the tick: stop the scan, delete
the results, scan again. -/
def scanOps : List RadioOp := [RadioOp.stopScan, RadioOp.clearResults, RadioOp.startScan]

/-- Whether a radio operation belongs to the scan restart service. -/
def isScanOp : RadioOp → Bool
  | .startScan => true
  | .stopScan => true
  | .clearResults => true
  | .connect _ => false
  | .disconnect => false

/-- The timed part of loop(): if the connect timer fired, switch the LED
off, run the connect loop over all table entries and schedule the next
trial 5000 msec ahead. -/
def connectPhase (new_ : Nat) (drv : Nat → DrvOutcome) (s : Sys) : Sys × List RadioOp :=
  if new_ % U32 > s.newcontime then
    let ra := connectLoop drv (List.range s.tags.length) { s with led := false }
    ({ ra.1 with newcontime := (new_ % U32 + 5000) % U32 }, ra.2)
  else (s, [])

/-- The scan restart service of loop(): if a restart was requested, reset
the request and stop the scan, delete the results and scan again. -/
def serviceScan (s : Sys) : Sys × List RadioOp :=
  if s.restartscan then ({ s with restartscan := false }, scanOps) else (s, [])

/-- One execution of loop() at millis value new_: the timed connect phase,
then the scan restart service (at most once), then the buzzer timing. -/
def loopTick (new_ : Nat) (drv : Nat → DrvOutcome) (s : Sys) : Sys × List RadioOp :=
  let r1 := connectPhase new_ drv s
  let r2 := serviceScan r1.1
  (handle_beeptimer r2.1, r1.2 ++ r2.2)

/-- External events: an advertisement with a given address, a driver
disconnect of client i (the driver drops the link and then invokes
onDisconnect with the peer address), a button notification, and one main
loop execution with the driver outcomes for its connect attempts. -/
inductive Event where
  | adv (addr : String)
  | disc (i : Nat)
  | note (h new_ : Nat)
  | tick (new_ : Nat) (drv : Nat → DrvOutcome)

/-- State transition of one event. -/
def step : Event → Sys → Sys
  | .adv a, s => (onResult a s).1
  | .disc i, s =>
    if i < s.tags.length then
      (onDisconnectCB (getTag s i).addr (setTag s i { getTag s i with connected := false })).1
    else s
  | .note h n, s => (notifyCallback h n s).1
  | .tick n d, s => (loopTick n d s).1

/-- Run a sequence of events. -/
def run : List Event → Sys → Sys
  | [], s => s
  | e :: es, s => run es (step e s)

/-- The configured Itag[] table of the sketch: three addresses, no
characteristic, not advertized, oldmillis 0, and fresh clients. -/
def initSys : Sys :=
  { tags := [ { addr := "ff:ff:11:11:a2:fa", pRemChar := none, advertized := false,
                oldmillis := 0, connected := false },
              { addr := "ff:ff:22:21:ab:11", pRemChar := none, advertized := false,
                oldmillis := 0, connected := false },
              { addr := "ff:ff:77:70:4b:f0", pRemChar := none, advertized := false,
                oldmillis := 0, connected := false } ],
    restartscan := false, beeptimer := 0, buzzing := false, led := false, newcontime := 0 }

/-- Whether table entry i is due for a connect attempt: advertized and not
connected. -/
def att (s : Sys) (i : Nat) : Bool := (getTag s i).advertized && !(getTag s i).connected

/-- A one-entry table whose tag has advertized and is not yet connected. -/
def sysOneAdv : Sys := ⟨[⟨"aa", none, true, 0, false⟩], false, 0, false, false, 0⟩

/-- A one-entry table whose tag is connected with a bound characteristic. -/
def sysConnectedStale : Sys := ⟨[⟨"aa", some 5, true, 0, true⟩], false, 0, false, false, 0⟩

/-- A one-entry table with an advertized tag whose connect timer is far in
the future. -/
def sysLate : Sys := ⟨[⟨"aa", none, true, 0, false⟩], false, 0, false, false, 10000⟩

/-- A fresh one-entry table. -/
def init1 : Sys := ⟨[⟨"aa", none, false, 0, false⟩], false, 0, false, false, 0⟩

/-- Driver outcomes: connect succeeds, button service and characteristic
found, notification supported, subscribe succeeds. -/
def drvOkBtn : DrvOutcome := ⟨true, true, true, some 1, true, some 7, true, false, true⟩

/-- Driver outcomes: connect succeeds but the button service is absent. -/
def drvOkNoBtn : DrvOutcome := ⟨true, true, true, some 1, false, none, false, false, false⟩

/-- Driver outcomes: connect succeeds, characteristic found but it does
not support notification. -/
def drvOkBtnNoNotify : DrvOutcome := ⟨true, true, true, some 1, true, some 9, false, false, false⟩

/-- Driver outcomes: the connect attempt fails. -/
def drvFail : DrvOutcome := ⟨false, false, false, none, false, none, false, false, false⟩

/-- Event run: discover and connect (binding handle 7), driver disconnect,
rediscover, reconnect through a driver that no longer offers the button
service. -/
def ev5 : List Event :=
  [Event.adv "aa", Event.tick 1 (fun _ => drvOkBtn), Event.disc 0,
   Event.adv "aa", Event.tick 9000 (fun _ => drvOkNoBtn)]

/-- The state invariant: a table entry reported connected is advertized. -/
def Inv (s : Sys) : Prop :=
  ∀ i, (getTag s i).connected = true → (getTag s i).advertized = true

theorem getD_set_self : ∀ (l : List Tag) (i : Nat) (t : Tag), i < l.length →
    (l.set i t).getD i default = t := by
  intro l
  induction l with
  | nil => intro i t h; simp at h
  | cons x xs ih =>
    intro i t h
    cases i with
    | zero => simp
    | succ n =>
      simp only [List.set_cons_succ, List.getD_cons_succ]
      exact ih n t (by simpa using h)

theorem getD_set_ne : ∀ (l : List Tag) (i j : Nat) (t : Tag), j ≠ i →
    (l.set i t).getD j default = l.getD j default := by
  intro l
  induction l with
  | nil => intro i j t _; simp
  | cons x xs ih =>
    intro i j t h
    cases i with
    | zero =>
      cases j with
      | zero => exact absurd rfl h
      | succ m => simp
    | succ n =>
      cases j with
      | zero => simp
      | succ m =>
        simp only [List.set_cons_succ, List.getD_cons_succ]
        exact ih n m t (fun hc => h (by simp [hc]))

theorem getTag_setTag_self (s : Sys) (i : Nat) (t : Tag) (h : i < s.tags.length) :
    getTag (setTag s i t) i = t := getD_set_self s.tags i t h

theorem getTag_setTag_ne (s : Sys) (i j : Nat) (t : Tag) (h : j ≠ i) :
    getTag (setTag s i t) j = getTag s j := getD_set_ne s.tags i j t h

theorem tags_length_setTag (s : Sys) (i : Nat) (t : Tag) :
    (setTag s i t).tags.length = s.tags.length := List.length_set ..

theorem getTag_out_of_range (s : Sys) (i : Nat) (h : ¬ i < s.tags.length) :
    getTag s i = default := by
  unfold getTag
  rw [List.getD_eq_getElem?_getD, List.getElem?_eq_none (by omega)]
  rfl

theorem getElem?_set_getD (l : List Tag) (i : Nat) (t : Tag) (h : i < l.length) :
    (l.set i t)[i]?.getD default = t := by
  rw [← List.getD_eq_getElem?_getD]; exact getD_set_self l i t h

theorem connectToServer_effect (s : Sys) (i : Nat) (d : DrvOutcome) (h : i < s.tags.length) :
    (connectToServer i d s).1.tags = s.tags.set i (tagAfterConnect (getTag s i) d)
    ∧ (connectToServer i d s).1.restartscan = (s.restartscan || d.res)
    ∧ (connectToServer i d s).1.beeptimer = s.beeptimer
    ∧ (connectToServer i d s).1.buzzing = s.buzzing
    ∧ (connectToServer i d s).1.led = s.led
    ∧ (connectToServer i d s).1.newcontime = s.newcontime
    ∧ (connectToServer i d s).2 = [RadioOp.connect (getTag s i).addr] := by
  have hres : ∀ b : Bool, (if b = true then (onConnectCB s).1 else s).tags = s.tags := by
    intro b; cases b <;> simp [onConnectCB]
  have hgt : ∀ b : Bool, getTag (if b = true then (onConnectCB s).1 else s) i = getTag s i := by
    intro b; cases b <;> simp [onConnectCB, getTag]
  cases hr : d.res <;> cases hc : d.isConn <;> cases hb : d.btnSvc <;>
    simp [connectToServer, tagAfterConnect, onConnectCB, NOTIFY, hr, hc, hb, setTag, getTag,
      List.set_set, getD_set_self _ _ _ h, getElem?_set_getD _ _ _ (by simpa using h)]

theorem any_congr_mem : ∀ (l : List Nat) (p q : Nat → Bool),
    (∀ a ∈ l, p a = q a) → l.any p = l.any q := by
  intro l
  induction l with
  | nil => intro p q _; rfl
  | cons x xs ih =>
    intro p q h
    simp only [List.any_cons, h x (by simp), ih p q (fun a ha => h a (by simp [ha]))]

/-- Full characterization of the connect phase of loop() over a duplicate
free list of in-range indices: the table entries due for an attempt are
replaced by their after-connect value and nothing else in the table
changes; restartscan picks up every attempt whose driver established the
link; the LED latches any advertized entry; an attempt loads the long
buzzer duration; newcontime is untouched; and the trace holds exactly one
connect operation per attempted entry. -/
theorem connectLoop_spec (drv : Nat → DrvOutcome) :
    ∀ (l : List Nat) (s : Sys), l.Nodup → (∀ i ∈ l, i < s.tags.length) →
    ((connectLoop drv l s).1.tags.length = s.tags.length)
    ∧ (∀ j, getTag (connectLoop drv l s).1 j =
        if j ∈ l ∧ att s j = true then tagAfterConnect (getTag s j) (drv j) else getTag s j)
    ∧ ((connectLoop drv l s).1.restartscan
        = (s.restartscan || l.any fun i => att s i && (drv i).res))
    ∧ ((connectLoop drv l s).1.led = (s.led || l.any fun i => (getTag s i).advertized))
    ∧ ((connectLoop drv l s).1.beeptimer
        = if l.any (fun i => att s i) then (1000 : Int) else s.beeptimer)
    ∧ ((connectLoop drv l s).1.buzzing = (s.buzzing || l.any fun i => att s i))
    ∧ ((connectLoop drv l s).1.newcontime = s.newcontime)
    ∧ ((connectLoop drv l s).2
        = l.filterMap fun i =>
            if att s i = true then some (RadioOp.connect (getTag s i).addr) else none) := by
  intro l
  induction l with
  | nil => intro s _ _; simp [connectLoop]
  | cons i rest ih =>
    intro s hnd hbnd
    have hi : i < s.tags.length := hbnd i (by simp)
    have hirest : i ∉ rest := (List.nodup_cons.mp hnd).1
    have hndr : rest.Nodup := (List.nodup_cons.mp hnd).2
    cases hadv : (getTag s i).advertized with
    | false =>
      have hatt : att s i = false := by simp [att, hadv]
      have hunf : connectLoop drv (i :: rest) s = connectLoop drv rest s := by
        simp [connectLoop, hadv]
      obtain ⟨h1, h2, h3, h4, h5, h6, h7, h8⟩ :=
        ih s hndr (fun j hj => hbnd j (by simp [hj]))
      rw [hunf]
      refine ⟨h1, ?_, ?_, ?_, ?_, ?_, h7, ?_⟩
      · intro j
        rw [h2 j]
        by_cases hji : j = i
        · subst hji; simp [hirest, hatt]
        · simp [List.mem_cons, hji]
      · simp [h3, hatt]
      · simp [h4, hadv]
      · simp [h5, hatt]
      · simp [h6, hatt]
      · simp [h8, hatt]
    | true =>
      cases hcon : (getTag s i).connected with
      | true =>
        have hatt : att s i = false := by simp [att, hcon]
        have hgt1 : ∀ j, getTag { s with led := true } j = getTag s j := fun _ => rfl
        have hunf : connectLoop drv (i :: rest) s
            = connectLoop drv rest { s with led := true } := by
          simp only [connectLoop, hadv, hgt1, hcon]
          simp
        have hatt1 : ∀ j, att { s with led := true } j = att s j := fun _ => rfl
        obtain ⟨h1, h2, h3, h4, h5, h6, h7, h8⟩ :=
          ih { s with led := true } hndr (fun j hj => hbnd j (by simp [hj]))
        rw [hunf]
        refine ⟨h1, ?_, ?_, ?_, ?_, ?_, h7, ?_⟩
        · intro j
          rw [h2 j]
          by_cases hji : j = i
          · subst hji; simp [hirest, hatt, hatt1, hgt1]
          · simp [List.mem_cons, hji, hatt1, hgt1]
        · simp [h3, hatt, hatt1]
        · simp [h4, hadv, hgt1]
        · simp [h5, hatt, hatt1]
        · simp [h6, hatt, hatt1]
        · simp [h8, hatt, hatt1, hgt1]
      | false =>
        have hatt : att s i = true := by simp [att, hadv, hcon]
        set s1 : Sys := { s with led := true } with hs1
        have hgt1 : ∀ j, getTag s1 j = getTag s j := fun _ => rfl
        have hi1 : i < s1.tags.length := hi
        obtain ⟨e1, e2, e3, e4, e5, e6, e7⟩ := connectToServer_effect s1 i (drv i) hi1
        set r1 := connectToServer i (drv i) s1 with hr1
        set s2 : Sys := beep 1000 r1.1 with hs2
        have hunf : connectLoop drv (i :: rest) s
            = ((connectLoop drv rest s2).1, r1.2 ++ (connectLoop drv rest s2).2) := by
          simp only [connectLoop, hadv, hcon, hgt1]
          simp
        have hlen2 : s2.tags.length = s.tags.length := by
          simp [hs2, beep, e1]
        have hgt2ne : ∀ j, j ≠ i → getTag s2 j = getTag s j := by
          intro j hj
          show (s2.tags.getD j default) = _
          simp only [hs2, beep, e1]
          exact getD_set_ne s.tags i j _ hj
        have hgt2i : getTag s2 i = tagAfterConnect (getTag s i) (drv i) := by
          show (s2.tags.getD i default) = _
          simp only [hs2, beep, e1]
          exact getD_set_self s.tags i _ hi
        have hatt2 : ∀ j ∈ rest, att s2 j = att s j := by
          intro j hj
          have : j ≠ i := fun hc => hirest (hc ▸ hj)
          simp [att, hgt2ne j this]
        obtain ⟨h1, h2, h3, h4, h5, h6, h7, h8⟩ :=
          ih s2 hndr (fun j hj => hlen2 ▸ hbnd j (by simp [hj]))
        rw [hunf]
        refine ⟨by rw [h1, hlen2], ?_, ?_, ?_, ?_, ?_, ?_, ?_⟩
        · intro j
          rw [h2 j]
          by_cases hji : j = i
          · subst hji
            simp [hirest, hatt, hgt2i]
          · have hne := hgt2ne j hji
            have : att s2 j = att s j := by simp [att, hne]
            simp [List.mem_cons, hji, this, hne]
        · rw [h3]
          have hcg : rest.any (fun k => att s2 k && (drv k).res)
              = rest.any (fun k => att s k && (drv k).res) := by
            refine any_congr_mem rest _ _ (fun a ha => ?_)
            rw [hatt2 a ha]
          have hrs2 : s2.restartscan = (s.restartscan || (drv i).res) := by
            simp [hs2, beep, e2]
          rw [hcg, hrs2]
          simp [List.any_cons, hatt, Bool.or_assoc]
        · rw [h4]
          have hled2 : s2.led = true := by simp [hs2, beep, e5]
          simp [hled2, hadv]
        · rw [h5]
          have hbt2 : s2.beeptimer = 1000 := by simp [hs2, beep]
          simp [List.any_cons, hatt, hbt2, ite_self]
        · rw [h6]
          have hbz2 : s2.buzzing = true := by simp [hs2, beep]
          simp [List.any_cons, hatt, hbz2]
        · rw [h7]; simp [hs2, beep, e6]
        · rw [h8, e7]
          have hcg : (rest.filterMap fun k =>
                if att s2 k = true then some (RadioOp.connect (getTag s2 k).addr) else none)
              = rest.filterMap fun k =>
                if att s k = true then some (RadioOp.connect (getTag s k).addr) else none := by
            refine List.filterMap_congr (fun a ha => ?_)
            have hne : a ≠ i := fun hc => hirest (hc ▸ ha)
            rw [hatt2 a ha, hgt2ne a hne]
          rw [hcg]
          simp [List.filterMap_cons, hatt, hgt1]

theorem handle_beeptimer_frame (s : Sys) :
    (handle_beeptimer s).tags = s.tags ∧ (handle_beeptimer s).restartscan = s.restartscan
    ∧ (handle_beeptimer s).led = s.led ∧ (handle_beeptimer s).newcontime = s.newcontime := by
  simp only [handle_beeptimer]
  split_ifs <;> simp

theorem handle_beeptimer_of_1000 (s : Sys) (h : s.beeptimer = 1000) (h2 : s.buzzing = true) :
    (handle_beeptimer s).beeptimer = 900 ∧ (handle_beeptimer s).buzzing = true := by
  unfold handle_beeptimer
  rw [h]
  norm_num [h2]

theorem any_range_getD : ∀ (l : List Tag) (p : Tag → Bool),
    (List.range l.length).any (fun i => p (l.getD i default)) = l.any p := by
  intro l
  induction l with
  | nil => intro p; rfl
  | cons t ts ih =>
    intro p
    rw [List.length_cons, List.range_succ_eq_map]
    simp only [List.any_cons, List.any_map]
    have hsucc : ∀ i : Nat, (t :: ts).getD (i + 1) default = ts.getD i default :=
      fun _ => List.getD_cons_succ
    have hcg : ∀ a ∈ List.range ts.length,
        ((fun i => p ((t :: ts).getD i default)) ∘ Nat.succ) a
          = (fun i => p (ts.getD i default)) a := by
      intro a _
      simp [Function.comp, hsucc]
    rw [any_congr_mem _ _ _ hcg, ih]
    simp

theorem notifyTags_no_match : ∀ (l : List Tag) (h n : Nat),
    (∀ u ∈ l, u.pRemChar ≠ some h) → notifyTags h n l = (l, false) := by
  intro l
  induction l with
  | nil => intro h n _; rfl
  | cons t ts ih =>
    intro h n hn
    have ht : ¬ t.pRemChar = some h := hn t (by simp)
    simp [notifyTags, ht, ih h n (fun u hu => hn u (by simp [hu]))]

theorem notifyTags_append : ∀ (pre : List Tag) (rest : List Tag) (h n : Nat),
    (∀ u ∈ pre, u.pRemChar ≠ some h) →
    notifyTags h n (pre ++ rest) = (pre ++ (notifyTags h n rest).1, (notifyTags h n rest).2) := by
  intro pre
  induction pre with
  | nil => intro rest h n _; simp
  | cons t ts ih =>
    intro rest h n hn
    have ht : ¬ t.pRemChar = some h := hn t (by simp)
    simp [notifyTags, ht, ih rest h n (fun u hu => hn u (by simp [hu]))]

theorem notifyTags_match (t : Tag) (ts : List Tag) (h n : Nat) (ht : t.pRemChar = some h) :
    notifyTags h n (t :: ts)
      = if debounceOk t.oldmillis n then ({ t with oldmillis := n } :: ts, true)
        else (t :: ts, false) := by
  simp [notifyTags, ht]

/-- The notification search changes at most the oldmillis of table
entries: length, addresses, characteristic handles, advertized and
connected flags are untouched. -/
theorem notifyTags_frame : ∀ (l : List Tag) (h n : Nat),
    (notifyTags h n l).1.length = l.length
    ∧ ∀ i, ((notifyTags h n l).1.getD i default).addr = (l.getD i default).addr
      ∧ ((notifyTags h n l).1.getD i default).pRemChar = (l.getD i default).pRemChar
      ∧ ((notifyTags h n l).1.getD i default).advertized = (l.getD i default).advertized
      ∧ ((notifyTags h n l).1.getD i default).connected = (l.getD i default).connected := by
  intro l
  induction l with
  | nil => intro h n; simp [notifyTags]
  | cons t ts ih =>
    intro h n
    by_cases ht : t.pRemChar = some h
    · rw [notifyTags_match t ts h n ht]
      by_cases hd : debounceOk t.oldmillis n
      · simp only [hd, if_pos]
        refine ⟨by simp, ?_⟩
        intro i
        cases i with
        | zero => simp
        | succ m => simp
      · simp [hd]
    · obtain ⟨h1, h2⟩ := ih h n
      simp only [notifyTags, ht, if_neg, ite_false]
      refine ⟨by simp [h1], ?_⟩
      intro i
      cases i with
      | zero => simp
      | succ m => simpa using h2 m

theorem notifyTags_map_addr : ∀ (l : List Tag) (h n : Nat),
    (notifyTags h n l).1.map Tag.addr = l.map Tag.addr := by
  intro l
  induction l with
  | nil => intro h n; rfl
  | cons t ts ih =>
    intro h n
    by_cases ht : t.pRemChar = some h
    · rw [notifyTags_match t ts h n ht]
      by_cases hd : debounceOk t.oldmillis n <;> simp [hd]
    · simp [notifyTags, ht, ih h n]

theorem clearAdvFirst_append (a : String) : ∀ (pre : List Tag) (t : Tag) (post : List Tag),
    (∀ u ∈ pre, u.addr ≠ a) → t.addr = a →
    clearAdvFirst a (pre ++ t :: post) = pre ++ { t with advertized := false } :: post := by
  intro pre
  induction pre with
  | nil => intro t post _ ht; simp [clearAdvFirst, ht]
  | cons u us ih =>
    intro t post hn ht
    have hu : ¬ u.addr = a := hn u (by simp)
    simp [clearAdvFirst, hu, ih t post (fun v hv => hn v (by simp [hv])) ht]

theorem clearAdvFirst_map_addr (a : String) : ∀ (l : List Tag),
    (clearAdvFirst a l).map Tag.addr = l.map Tag.addr := by
  intro l
  induction l with
  | nil => rfl
  | cons t ts ih =>
    by_cases ht : t.addr = a <;> simp [clearAdvFirst, ht, ih]

/-- When the table addresses are duplicate free, the onDisconnect search
for the address of entry i clears exactly entry i's advertized flag. -/
theorem clearAdvFirst_nodup_set : ∀ (l : List Tag) (i : Nat),
    (l.map Tag.addr).Nodup → i < l.length →
    clearAdvFirst ((l.getD i default).addr) l
      = l.set i { l.getD i default with advertized := false } := by
  intro l
  induction l with
  | nil => intro i _ h; simp at h
  | cons t ts ih =>
    intro i hnd hlen
    cases i with
    | zero => simp [clearAdvFirst]
    | succ m =>
      have hm : m < ts.length := by simpa using hlen
      have hmem : (ts.getD m default) ∈ ts := by
        rw [List.getD_eq_getElem?_getD, List.getElem?_eq_getElem hm]
        exact List.getElem_mem hm
      have hnd' : (ts.map Tag.addr).Nodup := (List.nodup_cons.mp (by simpa using hnd)).2
      have hta : t.addr ∉ ts.map Tag.addr := (List.nodup_cons.mp (by simpa using hnd)).1
      have hne : ¬ t.addr = (ts.getD m default).addr := fun hc =>
        hta (by rw [hc]; exact List.mem_map_of_mem Tag.addr hmem)
      simp only [List.getD_cons_succ, List.set_cons_succ, clearAdvFirst, if_neg hne]
      rw [ih m hnd' hm]

theorem getD_oob (l : List Tag) (j : Nat) (h : ¬ j < l.length) : l.getD j default = default := by
  rw [List.getD_eq_getElem?_getD, List.getElem?_eq_none (by omega)]
  rfl

theorem tagAfterConnect_addr (t : Tag) (d : DrvOutcome) : (tagAfterConnect t d).addr = t.addr := by
  unfold tagAfterConnect; split_ifs <;> rfl

theorem tagAfterConnect_advertized (t : Tag) (d : DrvOutcome) :
    (tagAfterConnect t d).advertized = t.advertized := by
  unfold tagAfterConnect; split_ifs <;> rfl

theorem tagAfterConnect_oldmillis (t : Tag) (d : DrvOutcome) :
    (tagAfterConnect t d).oldmillis = t.oldmillis := by
  unfold tagAfterConnect; split_ifs <;> rfl

theorem tagAfterConnect_connected (t : Tag) (d : DrvOutcome) :
    (tagAfterConnect t d).connected = d.isConn := by
  unfold tagAfterConnect; split_ifs <;> rfl

/-- Convenience form of connectLoop_spec for the index list of loop():
the range of the table length. -/
theorem connectLoop_range (drv : Nat → DrvOutcome) (s : Sys) :
    ((connectLoop drv (List.range s.tags.length) s).1.tags.length = s.tags.length)
    ∧ (∀ j, getTag (connectLoop drv (List.range s.tags.length) s).1 j =
        if j < s.tags.length ∧ att s j = true
        then tagAfterConnect (getTag s j) (drv j) else getTag s j)
    ∧ ((connectLoop drv (List.range s.tags.length) s).1.restartscan
        = (s.restartscan || (List.range s.tags.length).any fun i => att s i && (drv i).res))
    ∧ ((connectLoop drv (List.range s.tags.length) s).1.led
        = (s.led || s.tags.any Tag.advertized))
    ∧ ((connectLoop drv (List.range s.tags.length) s).1.beeptimer
        = if (List.range s.tags.length).any (fun i => att s i) then (1000 : Int)
          else s.beeptimer)
    ∧ ((connectLoop drv (List.range s.tags.length) s).1.buzzing
        = (s.buzzing || (List.range s.tags.length).any fun i => att s i))
    ∧ ((connectLoop drv (List.range s.tags.length) s).1.newcontime = s.newcontime)
    ∧ ((connectLoop drv (List.range s.tags.length) s).2
        = (List.range s.tags.length).filterMap fun i =>
            if att s i = true then some (RadioOp.connect (getTag s i).addr) else none) := by
  obtain ⟨h1, h2, h3, h4, h5, h6, h7, h8⟩ :=
    connectLoop_spec drv (List.range s.tags.length) s (List.nodup_range s.tags.length)
      (fun i hi => List.mem_range.mp hi)
  refine ⟨h1, ?_, h3, ?_, h5, h6, h7, h8⟩
  · intro j
    rw [h2 j]
    simp [List.mem_range]
  · rw [h4]
    have := any_range_getD s.tags Tag.advertized
    simp only [getTag]
    rw [this]

theorem serviceScan_frame (s : Sys) :
    (serviceScan s).1.tags = s.tags
    ∧ (serviceScan s).1.beeptimer = s.beeptimer
    ∧ (serviceScan s).1.buzzing = s.buzzing
    ∧ (serviceScan s).1.led = s.led
    ∧ (serviceScan s).1.newcontime = s.newcontime
    ∧ (serviceScan s).1.restartscan = false
    ∧ (serviceScan s).2 = (if s.restartscan then scanOps else []) := by
  unfold serviceScan
  by_cases h : s.restartscan = true
  · rw [if_pos h, if_pos h]
    exact ⟨rfl, rfl, rfl, rfl, rfl, rfl, rfl⟩
  · rw [if_neg h, if_neg h]
    refine ⟨rfl, rfl, rfl, rfl, rfl, ?_, rfl⟩
    simpa using h

set_option maxRecDepth 8000 in
theorem connectPhase_tags (n : Nat) (drv : Nat → DrvOutcome) (s : Sys) :
    ((connectPhase n drv s).1.tags.length = s.tags.length)
    ∧ ∀ j, getTag (connectPhase n drv s).1 j =
        if (n % U32 > s.newcontime) ∧ j < s.tags.length ∧ att s j = true
        then tagAfterConnect (getTag s j) (drv j) else getTag s j := by
  unfold connectPhase
  by_cases hf : n % U32 > s.newcontime
  · obtain ⟨h1, h2, h3, h4, h5, h6, h7, h8⟩ := connectLoop_range drv { s with led := false }
    rw [if_pos hf]
    refine ⟨h1, ?_⟩
    intro j
    have hj := h2 j
    simp only [hf, true_and]
    exact hj
  · rw [if_neg hf]
    refine ⟨rfl, ?_⟩
    intro j
    simp [hf]

theorem connectPhase_parts (n : Nat) (drv : Nat → DrvOutcome) (s : Sys)
    (hf : n % U32 > s.newcontime) :
    ((connectPhase n drv s).1.restartscan
      = (s.restartscan || (List.range s.tags.length).any fun i => att s i && (drv i).res))
    ∧ ((connectPhase n drv s).1.led = s.tags.any Tag.advertized)
    ∧ ((connectPhase n drv s).1.beeptimer
      = if (List.range s.tags.length).any (fun i => att s i) then (1000 : Int)
        else s.beeptimer)
    ∧ ((connectPhase n drv s).1.buzzing
      = (s.buzzing || (List.range s.tags.length).any fun i => att s i))
    ∧ ((connectPhase n drv s).2
      = (List.range s.tags.length).filterMap fun i =>
          if att s i = true then some (RadioOp.connect (getTag s i).addr) else none) := by
  obtain ⟨h1, h2, h3, h4, h5, h6, h7, h8⟩ := connectLoop_range drv { s with led := false }
  unfold connectPhase
  rw [if_pos hf]
  exact ⟨h3, by rw [h4]; simp, h5, h6, h8⟩

theorem connectPhase_skip (n : Nat) (drv : Nat → DrvOutcome) (s : Sys)
    (hf : ¬ n % U32 > s.newcontime) : connectPhase n drv s = (s, []) := by
  unfold connectPhase
  rw [if_neg hf]

/-- The restartscan flag is always false after a loop execution: the tick
services every pending request in the same pass. -/
theorem loopTick_restartscan (n : Nat) (drv : Nat → DrvOutcome) (s : Sys) :
    (loopTick n drv s).1.restartscan = false := by
  show (handle_beeptimer (serviceScan (connectPhase n drv s).1).1).restartscan = false
  rw [(handle_beeptimer_frame _).2.1]
  exact (serviceScan_frame _).2.2.2.2.2.1

/-- Pointwise effect of one loop execution on the table. -/
theorem loopTick_tags (n : Nat) (drv : Nat → DrvOutcome) (s : Sys) :
    ((loopTick n drv s).1.tags.length = s.tags.length)
    ∧ ∀ j, getTag (loopTick n drv s).1 j =
        if (n % U32 > s.newcontime) ∧ j < s.tags.length ∧ att s j = true
        then tagAfterConnect (getTag s j) (drv j) else getTag s j := by
  have htags : (loopTick n drv s).1.tags = (connectPhase n drv s).1.tags := by
    show (handle_beeptimer (serviceScan (connectPhase n drv s).1).1).tags = _
    rw [(handle_beeptimer_frame _).1]
    exact (serviceScan_frame _).1
  obtain ⟨h1, h2⟩ := connectPhase_tags n drv s
  refine ⟨by rw [htags, h1], ?_⟩
  intro j
  show ((loopTick n drv s).1.tags.getD j default) = _
  rw [htags]
  exact h2 j

/-- The trace of one loop execution: the connect attempts of the timed
phase followed by the scan restart service. -/
theorem loopTick_trace (n : Nat) (drv : Nat → DrvOutcome) (s : Sys) :
    (loopTick n drv s).2
      = (connectPhase n drv s).2
        ++ (if (connectPhase n drv s).1.restartscan then scanOps else []) := by
  show (connectPhase n drv s).2 ++ (serviceScan (connectPhase n drv s).1).2 = _
  rw [(serviceScan_frame _).2.2.2.2.2.2]

theorem map_addr_ext : ∀ (l1 l2 : List Tag), l1.length = l2.length →
    (∀ i, (l1.getD i default).addr = (l2.getD i default).addr) →
    l1.map Tag.addr = l2.map Tag.addr := by
  intro l1
  induction l1 with
  | nil =>
    intro l2 h _
    cases l2 with
    | nil => rfl
    | cons u us => simp at h
  | cons t ts ih =>
    intro l2 h hp
    cases l2 with
    | nil => simp at h
    | cons u us =>
      have h0 := hp 0
      simp only [List.getD_cons_zero] at h0
      simp only [List.map_cons, h0]
      rw [ih us (by simpa using h)
        (fun i => by simpa only [List.getD_cons_succ] using hp (i + 1))]

theorem map_addr_set (l : List Tag) (i : Nat) (t' : Tag)
    (h : t'.addr = (l.getD i default).addr) :
    (l.set i t').map Tag.addr = l.map Tag.addr := by
  refine map_addr_ext _ _ (List.length_set ..) (fun j => ?_)
  by_cases hj : j = i
  · subst hj
    by_cases hlt : j < l.length
    · rw [getD_set_self l j t' hlt, h]
    · rw [getD_oob _ _ (by rw [List.length_set]; exact hlt), getD_oob _ _ hlt]
  · rw [getD_set_ne l i j t' hj]

theorem getD_map (f : Tag → Tag) : ∀ (l : List Tag) (j : Nat),
    (l.map f).getD j default = if j < l.length then f (l.getD j default) else default := by
  intro l
  induction l with
  | nil => intro j; simp
  | cons t ts ih =>
    intro j
    cases j with
    | zero => simp
    | succ m =>
      simp only [List.map_cons, List.getD_cons_succ, ih m, List.length_cons]
      by_cases hm : m < ts.length
      · rw [if_pos hm, if_pos (by omega)]
      · rw [if_neg hm, if_neg (by omega)]

theorem notifyCallback_tags (h n : Nat) (s : Sys) :
    (notifyCallback h n s).1.tags = (notifyTags h (n % U32) s.tags).1 := by
  simp only [notifyCallback, beep]
  split_ifs <;> rfl

theorem connectToServer_trace (i : Nat) (d : DrvOutcome) (s : Sys) :
    (connectToServer i d s).2 = [RadioOp.connect (getTag s i).addr] := by
  simp only [connectToServer]
  split_ifs <;> rfl

/-- Every event preserves the list of configured addresses. -/
theorem step_map_addr : ∀ (e : Event) (s : Sys),
    (step e s).tags.map Tag.addr = s.tags.map Tag.addr := by
  intro e s
  cases e with
  | adv a =>
    show (s.tags.map _).map Tag.addr = s.tags.map Tag.addr
    rw [List.map_map]
    refine List.map_congr_left (fun t _ => ?_)
    show (if ¬ t.advertized = true ∧ t.addr = a
        then ({ t with advertized := true } : Tag) else t).addr = t.addr
    by_cases h : ¬ t.advertized = true ∧ t.addr = a
    · rw [if_pos h]
    · rw [if_neg h]
  | disc i =>
    by_cases hi : i < s.tags.length
    · show (if i < s.tags.length then _ else s).tags.map Tag.addr = _
      rw [if_pos hi]
      show (clearAdvFirst (getTag s i).addr
        ((setTag s i { getTag s i with connected := false }).tags)).map Tag.addr = _
      rw [clearAdvFirst_map_addr]
      exact map_addr_set s.tags i _ rfl
    · show (if i < s.tags.length then _ else s).tags.map Tag.addr = _
      rw [if_neg hi]
  | note h n =>
    show (notifyCallback h n s).1.tags.map Tag.addr = _
    rw [notifyCallback_tags, notifyTags_map_addr]
  | tick n drv =>
    obtain ⟨h1, h2⟩ := loopTick_tags n drv s
    refine map_addr_ext _ _ h1 (fun j => ?_)
    show ((loopTick n drv s).1.tags.getD j default).addr = _
    have := h2 j
    simp only [getTag] at this
    rw [this]
    split_ifs with h
    · rw [tagAfterConnect_addr]
    · rfl

theorem att_true_iff (s : Sys) (i : Nat) :
    att s i = true ↔ (getTag s i).advertized = true ∧ (getTag s i).connected = false := by
  simp [att]

theorem onResult_getTag (a : String) (s : Sys) (j : Nat) :
    getTag (onResult a s).1 j
      = if j < s.tags.length then
          (if ¬ (getTag s j).advertized = true ∧ (getTag s j).addr = a
           then { getTag s j with advertized := true } else getTag s j)
        else default :=
  getD_map (fun t : Tag =>
    if ¬ t.advertized = true ∧ t.addr = a then { t with advertized := true } else t) s.tags j

/-- Every event preserves the invariant, provided the configured addresses
are duplicate free. -/
theorem step_Inv (e : Event) (s : Sys) (hnd : (s.tags.map Tag.addr).Nodup) (h : Inv s) :
    Inv (step e s) := by
  cases e with
  | adv a =>
    intro j hc
    have hg : getTag (step (Event.adv a) s) j
        = if j < s.tags.length then
            (if ¬ (getTag s j).advertized = true ∧ (getTag s j).addr = a
             then { getTag s j with advertized := true } else getTag s j)
          else default := onResult_getTag a s j
    rw [hg] at hc ⊢
    by_cases hj : j < s.tags.length
    · rw [if_pos hj] at hc ⊢
      by_cases hcond : ¬ (getTag s j).advertized = true ∧ (getTag s j).addr = a
      · rw [if_pos hcond]
      · rw [if_neg hcond] at hc ⊢
        exact h j hc
    · rw [if_neg hj] at hc
      exact absurd hc (by simp)
  | disc i =>
    by_cases hi : i < s.tags.length
    · have hs1 : (setTag s i { getTag s i with connected := false }).tags
          = s.tags.set i { getTag s i with connected := false } := rfl
      have hstep : (step (Event.disc i) s).tags
          = clearAdvFirst (getTag s i).addr
              (s.tags.set i { getTag s i with connected := false }) := by
        show (if i < s.tags.length then _ else s).tags = _
        rw [if_pos hi]
        rfl
      have hiset : i < (s.tags.set i { getTag s i with connected := false }).length := by
        rw [List.length_set]; exact hi
      have hgd : (s.tags.set i { getTag s i with connected := false }).getD i default
          = { getTag s i with connected := false } := getD_set_self _ _ _ hi
      have hnd' : ((s.tags.set i { getTag s i with connected := false }).map Tag.addr).Nodup := by
        rw [map_addr_set s.tags i { getTag s i with connected := false } rfl]
        exact hnd
      have hclear : clearAdvFirst (getTag s i).addr
            (s.tags.set i { getTag s i with connected := false })
          = (s.tags.set i { getTag s i with connected := false }).set i
              { { getTag s i with connected := false } with advertized := false } := by
        have h0 := clearAdvFirst_nodup_set
          (s.tags.set i { getTag s i with connected := false }) i hnd' hiset
        rw [hgd] at h0
        exact h0
      intro j hc
      have hgj : getTag (step (Event.disc i) s) j
          = ((s.tags.set i { getTag s i with connected := false }).set i
              { { getTag s i with connected := false }
                with advertized := false }).getD j default := by
        show (step (Event.disc i) s).tags.getD j default = _
        rw [hstep, hclear]
      by_cases hj : j = i
      · subst hj
        rw [hgj, getD_set_self _ _ _ hiset] at hc
        exact absurd hc (by simp)
      · rw [hgj, getD_set_ne _ _ _ _ hj, getD_set_ne _ _ _ _ hj] at hc
        rw [hgj, getD_set_ne _ _ _ _ hj, getD_set_ne _ _ _ _ hj]
        exact h j hc
    · intro j hc
      have hstep : step (Event.disc i) s = s := by
        show (if i < s.tags.length then _ else s) = s
        rw [if_neg hi]
      rw [hstep] at hc ⊢
      exact h j hc
  | note hh nn =>
    intro j hc
    obtain ⟨hlen, hfr⟩ := notifyTags_frame s.tags hh (nn % U32)
    have hg : getTag (step (Event.note hh nn) s) j
        = (notifyTags hh (nn % U32) s.tags).1.getD j default := by
      show (step (Event.note hh nn) s).tags.getD j default = _
      rw [show (step (Event.note hh nn) s).tags = (notifyTags hh (nn % U32) s.tags).1 from
        notifyCallback_tags hh nn s]
    rw [hg] at hc ⊢
    rw [(hfr j).2.2.2] at hc
    rw [(hfr j).2.2.1]
    exact h j hc
  | tick nn drv =>
    intro j hc
    obtain ⟨h1, h2⟩ := loopTick_tags nn drv s
    have hcs : getTag (step (Event.tick nn drv) s) j = getTag (loopTick nn drv s).1 j := rfl
    rw [hcs, h2 j] at hc ⊢
    split_ifs at hc ⊢ with hcond
    · rw [tagAfterConnect_advertized]
      exact (att_true_iff s j).mp hcond.2.2 |>.1
    · exact h j hc

/-- The invariant and the address list are preserved along any run. -/
theorem run_Inv : ∀ (es : List Event) (s : Sys),
    (s.tags.map Tag.addr).Nodup → Inv s →
    Inv (run es s) ∧ (run es s).tags.map Tag.addr = s.tags.map Tag.addr := by
  intro es
  induction es with
  | nil => intro s _ h; exact ⟨h, rfl⟩
  | cons e es ih =>
    intro s hnd h
    have hmap := step_map_addr e s
    have hrec := ih (step e s) (by rw [hmap]; exact hnd) (step_Inv e s hnd h)
    refine ⟨hrec.1, ?_⟩
    show List.map Tag.addr (run es (step e s)).tags = List.map Tag.addr s.tags
    rw [hrec.2, hmap]

/-- A connect operation in the trace of a loop execution always belongs to
an advertized table entry of the pre state. -/
theorem loopTick_connect_adv (n : Nat) (drv : Nat → DrvOutcome) (s : Sys) (a : String) :
    RadioOp.connect a ∈ (loopTick n drv s).2 →
    ∃ i, i < s.tags.length ∧ (getTag s i).addr = a ∧ (getTag s i).advertized = true := by
  rw [loopTick_trace, List.mem_append]
  rintro (hm | hm)
  · by_cases hf : n % U32 > s.newcontime
    · rw [(connectPhase_parts n drv s hf).2.2.2.2, List.mem_filterMap] at hm
      obtain ⟨i, hi, hfi⟩ := hm
      by_cases hatt : att s i = true
      · rw [if_pos hatt] at hfi
        have ha : (getTag s i).addr = a := by
          have := Option.some.inj hfi
          exact RadioOp.connect.inj this
        exact ⟨i, List.mem_range.mp hi, ha, ((att_true_iff s i).mp hatt).1⟩
      · rw [if_neg hatt] at hfi
        cases hfi
    · rw [connectPhase_skip n drv s hf] at hm
      cases hm
  · exfalso
    revert hm
    split_ifs <;> simp [scanOps]

/-- An advertized, not connected entry is attempted whenever the connect
timer fires: its connect operation appears in the trace. -/
theorem loopTick_connect_mem (n : Nat) (drv : Nat → DrvOutcome) (s : Sys) (i : Nat)
    (hf : n % U32 > s.newcontime) (hi : i < s.tags.length) (ha : att s i = true) :
    RadioOp.connect (getTag s i).addr ∈ (loopTick n drv s).2 := by
  rw [loopTick_trace, List.mem_append]
  left
  rw [(connectPhase_parts n drv s hf).2.2.2.2, List.mem_filterMap]
  exact ⟨i, List.mem_range.mpr hi, by rw [if_pos ha]⟩

/-- The connect phase issues no scan operation. -/
theorem connectPhase_no_scan (n : Nat) (drv : Nat → DrvOutcome) (s : Sys) :
    (connectPhase n drv s).2.filter isScanOp = [] := by
  by_cases hf : n % U32 > s.newcontime
  · rw [(connectPhase_parts n drv s hf).2.2.2.2]
    rw [List.filter_eq_nil_iff]
    intro op hm
    rw [List.mem_filterMap] at hm
    obtain ⟨i, _, hfi⟩ := hm
    by_cases hatt : att s i = true
    · rw [if_pos hatt] at hfi
      rw [← Option.some.inj hfi]
      simp [isScanOp]
    · rw [if_neg hatt] at hfi
      cases hfi
  · rw [connectPhase_skip n drv s hf]
    rfl

/-- The activity LED after one loop execution: recomputed from the
advertized flags only when the connect timer fired, otherwise untouched. -/
theorem loopTick_led (n : Nat) (drv : Nat → DrvOutcome) (s : Sys) :
    (loopTick n drv s).1.led
      = if n % U32 > s.newcontime then s.tags.any Tag.advertized else s.led := by
  have hl : (loopTick n drv s).1.led = (connectPhase n drv s).1.led := by
    show (handle_beeptimer (serviceScan (connectPhase n drv s).1).1).led = _
    rw [(handle_beeptimer_frame _).2.2.1, (serviceScan_frame _).2.2.2.1]
  rw [hl]
  by_cases hf : n % U32 > s.newcontime
  · rw [if_pos hf, (connectPhase_parts n drv s hf).2.1]
  · rw [if_neg hf, connectPhase_skip n drv s hf]

/-- If the timer fired and some entry was attempted, the long beep was
loaded: after the tick the buzzer is on with 900 msec left (1000 minus the
one handle_beeptimer step of this tick). -/
theorem loopTick_beep (n : Nat) (drv : Nat → DrvOutcome) (s : Sys)
    (hf : n % U32 > s.newcontime)
    (hex : (List.range s.tags.length).any (fun i => att s i) = true) :
    (loopTick n drv s).1.beeptimer = 900 ∧ (loopTick n drv s).1.buzzing = true := by
  obtain ⟨p1, p2, p3, p4, p5⟩ := connectPhase_parts n drv s hf
  have hbt : (serviceScan (connectPhase n drv s).1).1.beeptimer = 1000 := by
    rw [(serviceScan_frame _).2.1, p3, if_pos hex]
  have hbz : (serviceScan (connectPhase n drv s).1).1.buzzing = true := by
    rw [(serviceScan_frame _).2.2.1, p4, hex]
    simp
  exact handle_beeptimer_of_1000 _ hbt hbz

/-- The long beep duration loaded by the connect phase is 1000 msec. -/
theorem connectPhase_beep_1000 (n : Nat) (drv : Nat → DrvOutcome) (s : Sys)
    (hf : n % U32 > s.newcontime)
    (hex : (List.range s.tags.length).any (fun i => att s i) = true) :
    (connectPhase n drv s).1.beeptimer = 1000 := by
  rw [(connectPhase_parts n drv s hf).2.2.1, if_pos hex]

/-- The scan restart triple appears in the trace of a fired tick exactly
when the flag was pending or some attempted entry had its link established
by the driver. -/
theorem loopTick_stop_iff (n : Nat) (drv : Nat → DrvOutcome) (s : Sys)
    (hf : n % U32 > s.newcontime) :
    RadioOp.stopScan ∈ (loopTick n drv s).2
      ↔ (s.restartscan = true
         ∨ ∃ i, i < s.tags.length ∧ att s i = true ∧ (drv i).res = true) := by
  obtain ⟨p1, p2, p3, p4, p5⟩ := connectPhase_parts n drv s hf
  rw [loopTick_trace, List.mem_append]
  constructor
  · rintro (hm | hm)
    · exfalso
      rw [p5, List.mem_filterMap] at hm
      obtain ⟨i, _, hfi⟩ := hm
      by_cases hatt : att s i = true
      · rw [if_pos hatt] at hfi
        cases Option.some.inj hfi
      · rw [if_neg hatt] at hfi
        cases hfi
    · by_cases hflag : (connectPhase n drv s).1.restartscan = true
      · rw [p1] at hflag
        rcases Bool.or_eq_true_iff.mp hflag with hl | hr
        · exact Or.inl hl
        · right
          obtain ⟨i, hi, hp⟩ := List.any_eq_true.mp hr
          have hsplit := Bool.and_eq_true_iff.mp hp
          exact ⟨i, List.mem_range.mp hi, hsplit.1, hsplit.2⟩
      · rw [if_neg hflag] at hm
        cases hm
  · intro hor
    right
    have hflag : (connectPhase n drv s).1.restartscan = true := by
      rw [p1]
      rcases hor with hl | ⟨i, hi, ha, hr⟩
      · rw [hl]; simp
      · refine Bool.or_eq_true_iff.mpr (Or.inr ?_)
        refine List.any_eq_true.mpr ⟨i, List.mem_range.mpr hi, ?_⟩
        rw [ha, hr]
        rfl
    rw [if_pos hflag]
    simp [scanOps]

/-- Pointwise effect of connectToServer: entry i becomes its after-connect
value, every other entry is untouched. -/
theorem connectToServer_getTag (s : Sys) (i : Nat) (d : DrvOutcome) (hi : i < s.tags.length) :
    (∀ j, j ≠ i → getTag (connectToServer i d s).1 j = getTag s j)
    ∧ getTag (connectToServer i d s).1 i = tagAfterConnect (getTag s i) d := by
  have he := (connectToServer_effect s i d hi).1
  constructor
  · intro j hj
    show (connectToServer i d s).1.tags.getD j default = _
    rw [he]
    exact getD_set_ne s.tags i j _ hj
  · show (connectToServer i d s).1.tags.getD i default = _
    rw [he]
    exact getD_set_self s.tags i _ hi

theorem tagAfterConnect_fail (t : Tag) (d : DrvOutcome)
    (h : d.res = false ∨ d.isConn = false) :
    tagAfterConnect t d = { t with connected := d.isConn } := by
  unfold tagAfterConnect
  rw [if_pos]
  rcases h with h | h
  · exact Or.inr (by simp [h])
  · exact Or.inl (by simp [h])

theorem tagAfterConnect_success_btn (t : Tag) (d : DrvOutcome)
    (hr : d.res = true) (hc : d.isConn = true) (hb : d.btnSvc = true) :
    tagAfterConnect t d = { t with connected := true, pRemChar := d.btnChar } := by
  unfold tagAfterConnect
  rw [if_neg (by simp [hr, hc]), if_pos (by simp [hb, NOTIFY]), hc]

theorem tagAfterConnect_success_nobtn (t : Tag) (d : DrvOutcome)
    (hr : d.res = true) (hc : d.isConn = true) (hb : d.btnSvc = false) :
    tagAfterConnect t d = { t with connected := true } := by
  unfold tagAfterConnect
  rw [if_neg (by simp [hr, hc]), if_neg (by simp [hb]), hc]

theorem initSys_connected_false : ∀ i, (getTag initSys i).connected = false := by
  intro i
  match i with
  | 0 => rfl
  | 1 => rfl
  | 2 => rfl
  | (m + 3) =>
    show (initSys.tags.getD (m + 3) default).connected = false
    rw [getD_oob initSys.tags (m + 3) (by simp [initSys])]
    rfl

theorem initSys_Inv : Inv initSys := by
  intro i hc
  rw [initSys_connected_false i] at hc
  cases hc

theorem initSys_nodup : (initSys.tags.map Tag.addr).Nodup := by decide

theorem notifyCallback_no_match (s : Sys) (h n : Nat)
    (hnm : ∀ u ∈ s.tags, u.pRemChar ≠ some h) : (notifyCallback h n s).1 = s := by
  simp only [notifyCallback]
  rw [notifyTags_no_match s.tags h (n % U32) hnm]
  simp

/-- Full decomposition of notifyCallback on a state whose first matching
entry is t0: the debounce test decides between the accepted update (new
timestamp, short beep) and the unchanged state. -/
theorem notifyCallback_match (pre : List Tag) (t0 : Tag) (post : List Tag)
    (rs : Bool) (bt : Int) (bz led : Bool) (nc : Nat) (h n : Nat)
    (hnm : ∀ u ∈ pre, u.pRemChar ≠ some h) (ht : t0.pRemChar = some h) :
    (notifyCallback h n (⟨pre ++ t0 :: post, rs, bt, bz, led, nc⟩ : Sys)).1
      = if debounceOk t0.oldmillis (n % U32)
        then ⟨pre ++ { t0 with oldmillis := n % U32 } :: post, rs, 500, true, led, nc⟩
        else ⟨pre ++ t0 :: post, rs, bt, bz, led, nc⟩ := by
  simp only [notifyCallback]
  rw [notifyTags_append pre (t0 :: post) h (n % U32) hnm,
    notifyTags_match t0 post h (n % U32) ht]
  by_cases hd : debounceOk t0.oldmillis (n % U32)
  · rw [if_pos hd, if_pos hd]
    simp [beep]
  · rw [if_neg hd, if_neg hd]
    simp

/-- Claim C1: for every tag, given two button notifications attributed to
that tag at times t and t + d (within one uint32 clock epoch, which the
spec's debounce rule presupposes), the second is accepted — logged, short
feedback (500) activated, timestamp updated to now — exactly when
d > 500 msec, strictly; a rejected notification leaves the state
untouched. -/
theorem claim1_debounce_threshold
    (h t d : Nat) (pre post : List Tag) (t0 : Tag)
    (rs : Bool) (bt : Int) (bz led : Bool) (nc : Nat)
    (hnm : ∀ u ∈ pre, u.pRemChar ≠ some h)
    (ht : t0.pRemChar = some h) (hold : t0.oldmillis = t)
    (hb1 : t + 500 < U32) (hb2 : t + d < U32) :
    (500 < d →
      (notifyCallback h (t + d) (⟨pre ++ t0 :: post, rs, bt, bz, led, nc⟩ : Sys)).1
        = ⟨pre ++ { t0 with oldmillis := t + d } :: post, rs, 500, true, led, nc⟩)
    ∧ (d ≤ 500 →
      (notifyCallback h (t + d) (⟨pre ++ t0 :: post, rs, bt, bz, led, nc⟩ : Sys)).1
        = ⟨pre ++ t0 :: post, rs, bt, bz, led, nc⟩) := by
  have hmod : (t + d) % U32 = t + d := Nat.mod_eq_of_lt hb2
  have hmod2 : (t + 500) % U32 = t + 500 := Nat.mod_eq_of_lt hb1
  have hdec : debounceOk t0.oldmillis ((t + d) % U32) = decide (500 < d) := by
    rw [hold]
    unfold debounceOk
    rw [hmod, hmod2]
    by_cases hgt : 500 < d
    · rw [decide_eq_true (show t + d > t + 500 by omega), decide_eq_true hgt]
    · rw [decide_eq_false (show ¬ t + d > t + 500 by omega), decide_eq_false hgt]
  constructor
  · intro hgt
    rw [notifyCallback_match pre t0 post rs bt bz led nc h (t + d) hnm ht,
      if_pos (by rw [hdec]; exact decide_eq_true hgt), hmod]
  · intro hle
    rw [notifyCallback_match pre t0 post rs bt bz led nc h (t + d) hnm ht,
      if_neg (by rw [hdec]; exact (by simpa using decide_eq_false (by omega : ¬ 500 < d)))]

/-- Claim C1 witness: an accepted second press 501 msec after the first,
and a rejected one exactly 500 msec after it. -/
theorem claim1_debounce_threshold_w :
    ((notifyCallback 7 (1000 + 501)
        (⟨[(⟨"aa", some 7, true, 1000, true⟩ : Tag)], false, 0, false, false, 0⟩ : Sys)).1
      = ⟨[(⟨"aa", some 7, true, 1501, true⟩ : Tag)], false, 500, true, false, 0⟩)
    ∧ ((notifyCallback 7 (1000 + 500)
        (⟨[(⟨"aa", some 7, true, 1000, true⟩ : Tag)], false, 0, false, false, 0⟩ : Sys)).1
      = ⟨[(⟨"aa", some 7, true, 1000, true⟩ : Tag)], false, 0, false, false, 0⟩) :=
  ⟨(claim1_debounce_threshold 7 1000 501 [] [] ⟨"aa", some 7, true, 1000, true⟩
      false 0 false false 0 (by simp) rfl rfl (by norm_num [U32]) (by norm_num [U32])).1
      (by norm_num),
   (claim1_debounce_threshold 7 1000 500 [] [] ⟨"aa", some 7, true, 1000, true⟩
      false 0 false false 0 (by simp) rfl rfl (by norm_num [U32]) (by norm_num [U32])).2
      (by norm_num)⟩

/-- Claim C2 counterexample: the disconnect handler of the sketch sets the
matching entry to not advertized but does not clear its pRemChar, so the
notifyHandle of the previous connection survives the disconnect. -/
theorem claim2_cx_handle_not_cleared :
    (getTag (onDisconnectCB "aa" sysConnectedStale).1 0).advertized = false
    ∧ (getTag (onDisconnectCB "aa" sysConnectedStale).1 0).pRemChar = some 5 := by
  decide

/-- Claim C2 amended: for every tag and every disconnect event for that
tag, the handler sets the matching entry's advertized flag to false and
raises the deferred scan restart request, leaving every other field of
that entry — its notifyHandle (pRemChar) included — and every other entry
unchanged. -/
theorem claim2_disconnect_effect (a : String) (pre : List Tag) (t0 : Tag) (post : List Tag)
    (rs : Bool) (bt : Int) (bz led : Bool) (nc : Nat)
    (hnm : ∀ u ∈ pre, u.addr ≠ a) (ht : t0.addr = a) :
    (onDisconnectCB a (⟨pre ++ t0 :: post, rs, bt, bz, led, nc⟩ : Sys)).1
      = ⟨pre ++ { t0 with advertized := false } :: post, true, bt, bz, led, nc⟩ := by
  simp only [onDisconnectCB]
  rw [clearAdvFirst_append a pre t0 post hnm ht]

/-- Claim C2 amended witness at a concrete connected entry. -/
theorem claim2_disconnect_effect_w :
    (onDisconnectCB "aa" sysConnectedStale).1
      = ⟨[(⟨"aa", some 5, false, 0, true⟩ : Tag)], true, 0, false, false, 0⟩ :=
  claim2_disconnect_effect "aa" [] ⟨"aa", some 5, true, 0, true⟩ [] false 0 false false 0
    (by simp) rfl

/-- Claim C3 counterexample: a failed connect attempt (drvFail) produces a
connect operation and the long feedback, but raises no scan restart: the
trace holds no scan operation and the flag stays false. -/
theorem claim3_cx_failed_connect_no_restart :
    (loopTick 1 (fun _ => drvFail) sysOneAdv).2 = [RadioOp.connect "aa"]
    ∧ (loopTick 1 (fun _ => drvFail) sysOneAdv).1.restartscan = false
    ∧ (loopTick 1 (fun _ => drvFail) sysOneAdv).1.buzzing = true := by
  decide

/-- Claim C3 amended: every connect attempt, success or failure, activates
the long feedback (duration 1000, distinct from the button press 500); the
deferred scan restart, however, is raised by an attempt only when the
driver established the link (onConnect ran, res = true), or when a request
was already pending. -/
theorem claim3_connect_feedback_restart (n : Nat) (drv : Nat → DrvOutcome) (s : Sys)
    (hf : n % U32 > s.newcontime)
    (hex : ∃ i, i < s.tags.length ∧ att s i = true) :
    ((connectPhase n drv s).1.beeptimer = 1000)
    ∧ (loopTick n drv s).1.beeptimer = 900
    ∧ (loopTick n drv s).1.buzzing = true
    ∧ (RadioOp.stopScan ∈ (loopTick n drv s).2
        ↔ (s.restartscan = true
           ∨ ∃ i, i < s.tags.length ∧ att s i = true ∧ (drv i).res = true)) := by
  have hany : (List.range s.tags.length).any (fun i => att s i) = true := by
    obtain ⟨i, hi, ha⟩ := hex
    exact List.any_eq_true.mpr ⟨i, List.mem_range.mpr hi, ha⟩
  obtain ⟨hb, hz⟩ := loopTick_beep n drv s hf hany
  exact ⟨connectPhase_beep_1000 n drv s hf hany, hb, hz, loopTick_stop_iff n drv s hf⟩

/-- Claim C3 amended witness at a concrete attempted entry. -/
theorem claim3_connect_feedback_restart_w :
    ((connectPhase 1 (fun _ => drvOkBtn) sysOneAdv).1.beeptimer = 1000)
    ∧ (loopTick 1 (fun _ => drvOkBtn) sysOneAdv).1.beeptimer = 900
    ∧ (loopTick 1 (fun _ => drvOkBtn) sysOneAdv).1.buzzing = true
    ∧ (RadioOp.stopScan ∈ (loopTick 1 (fun _ => drvOkBtn) sysOneAdv).2
        ↔ (sysOneAdv.restartscan = true
           ∨ ∃ i, i < sysOneAdv.tags.length ∧ att sysOneAdv i = true
              ∧ ((fun _ => drvOkBtn) i).res = true)) :=
  claim3_connect_feedback_restart 1 (fun _ => drvOkBtn) sysOneAdv (by decide)
    ⟨0, by decide, by decide⟩

/-- Claim C4: the driver callbacks (advertisement result, connect,
disconnect, notification) issue no radio mutating operation — their traces
are empty; the scan restart exists only as the deferred flag, and the main
loop is its sole consumer: each tick emits either no scan operation or the
single stop, clear results, start sequence, and always leaves the flag
reset. -/
theorem claim4_callbacks_defer_radio :
    (∀ (a : String) (s : Sys), (onResult a s).2 = [])
    ∧ (∀ s : Sys, (onConnectCB s).2 = [])
    ∧ (∀ (a : String) (s : Sys), (onDisconnectCB a s).2 = [])
    ∧ (∀ (h n : Nat) (s : Sys), (notifyCallback h n s).2 = [])
    ∧ (∀ (n : Nat) (drv : Nat → DrvOutcome) (s : Sys),
        ((loopTick n drv s).2.filter isScanOp = []
          ∨ (loopTick n drv s).2.filter isScanOp = scanOps)
        ∧ (loopTick n drv s).1.restartscan = false) := by
  refine ⟨fun a s => rfl, fun s => rfl, fun a s => rfl, fun h n s => rfl,
    fun n drv s => ⟨?_, loopTick_restartscan n drv s⟩⟩
  rw [loopTick_trace, List.filter_append, connectPhase_no_scan]
  simp only [List.nil_append]
  by_cases hflag : (connectPhase n drv s).1.restartscan = true
  · rw [if_pos hflag]
    right
    rfl
  · rw [if_neg hflag]
    left
    rfl

/-- Claim C5 counterexample: run ev5 from a fresh table — connect binding
handle 7, driver disconnect, rediscovery, reconnect through a driver
without the button service.  The final state is connected with pRemChar
still 7, the binding of the previous connection: the handle does dangle
across connections. -/
theorem claim5_cx_stale_handle :
    (getTag (run ev5 init1) 0).connected = true
    ∧ (getTag (run ev5 init1) 0).pRemChar = some 7
    ∧ drvOkNoBtn.btnSvc = false
    ∧ (getTag (run [Event.adv "aa", Event.tick 1 (fun _ => drvOkBtn), Event.disc 0] init1)
        0).pRemChar = some 7
    ∧ (getTag (run [Event.adv "aa", Event.tick 1 (fun _ => drvOkBtn), Event.disc 0] init1)
        0).connected = false := by
  decide

/-- Claim C5 amended: in every state reachable from the configured table, a
connected entry is advertized (so a connect attempt is only ever issued
for an advertized tag, as every connect operation in a tick trace belongs
to an advertized entry); the second half of the original claim fails: the
notifyHandle is not cleared on disconnect and may persist from a previous
connection. -/
theorem claim5_connected_implies_advertized (es : List Event) :
    (∀ i, (getTag (run es initSys) i).connected = true →
      (getTag (run es initSys) i).advertized = true)
    ∧ (∀ (n : Nat) (drv : Nat → DrvOutcome) (a : String),
        RadioOp.connect a ∈ (loopTick n drv (run es initSys)).2 →
        ∃ i, i < (run es initSys).tags.length
          ∧ (getTag (run es initSys) i).addr = a
          ∧ (getTag (run es initSys) i).advertized = true) := by
  refine ⟨(run_Inv es initSys initSys_nodup initSys_Inv).1, ?_⟩
  intro n drv a hm
  exact loopTick_connect_adv n drv (run es initSys) a hm

/-- Claim C5 amended witness: a run that connects the first configured tag,
and a run whose next tick issues a connect operation for it. -/
theorem claim5_connected_implies_advertized_w :
    (getTag (run [Event.adv "ff:ff:11:11:a2:fa", Event.tick 1 (fun _ => drvOkBtn)] initSys)
      0).advertized = true
    ∧ ∃ i, i < (run [Event.adv "ff:ff:11:11:a2:fa"] initSys).tags.length
        ∧ (getTag (run [Event.adv "ff:ff:11:11:a2:fa"] initSys) i).addr = "ff:ff:11:11:a2:fa"
        ∧ (getTag (run [Event.adv "ff:ff:11:11:a2:fa"] initSys) i).advertized = true :=
  ⟨(claim5_connected_implies_advertized
      [Event.adv "ff:ff:11:11:a2:fa", Event.tick 1 (fun _ => drvOkBtn)]).1 0 (by decide),
   (claim5_connected_implies_advertized [Event.adv "ff:ff:11:11:a2:fa"]).2
      1 (fun _ => drvOkBtn) "ff:ff:11:11:a2:fa" (by decide)⟩

/-- Claim C6: a failed connect attempt — the driver returned false or
reports not connected — leaves every field of the attempted entry (address,
notifyHandle, advertized, timestamp) and every other entry unchanged; the
entry stays advertized, and when the driver reports not connected it is due
again: any later tick whose connect timer fired issues a connect operation
for its address. -/
theorem claim6_failed_connect_frame (s : Sys) (i : Nat) (d : DrvOutcome)
    (hi : i < s.tags.length)
    (hadv : (getTag s i).advertized = true)
    (hfail : d.res = false ∨ d.isConn = false) :
    (∀ j, j ≠ i → getTag (connectToServer i d s).1 j = getTag s j)
    ∧ (getTag (connectToServer i d s).1 i).addr = (getTag s i).addr
    ∧ (getTag (connectToServer i d s).1 i).pRemChar = (getTag s i).pRemChar
    ∧ (getTag (connectToServer i d s).1 i).oldmillis = (getTag s i).oldmillis
    ∧ (getTag (connectToServer i d s).1 i).advertized = true
    ∧ (d.isConn = false →
        att (connectToServer i d s).1 i = true
        ∧ ∀ (n : Nat) (drv2 : Nat → DrvOutcome),
            n % U32 > (connectToServer i d s).1.newcontime →
            RadioOp.connect ((getTag s i).addr)
              ∈ (loopTick n drv2 (connectToServer i d s).1).2) := by
  obtain ⟨hne, hself⟩ := connectToServer_getTag s i d hi
  have hflds : getTag (connectToServer i d s).1 i
      = { getTag s i with connected := d.isConn } := by
    rw [hself, tagAfterConnect_fail (getTag s i) d hfail]
  refine ⟨hne, by rw [hflds], by rw [hflds], by rw [hflds],
    by rw [hflds]; exact hadv, ?_⟩
  intro hcn
  have hatt : att (connectToServer i d s).1 i = true :=
    (att_true_iff _ i).mpr ⟨by rw [hflds]; exact hadv, by rw [hflds]; exact hcn⟩
  refine ⟨hatt, fun n drv2 hn => ?_⟩
  have hlen : i < (connectToServer i d s).1.tags.length := by
    rw [(connectToServer_effect s i d hi).1, List.length_set]
    exact hi
  have hmem := loopTick_connect_mem n drv2 (connectToServer i d s).1 i hn hlen hatt
  have haddr : (getTag (connectToServer i d s).1 i).addr = (getTag s i).addr := by
    rw [hflds]
  rw [haddr] at hmem
  exact hmem

/-- Claim C6 witness at a concrete failing attempt. -/
theorem claim6_failed_connect_frame_w :
    (getTag (connectToServer 0 drvFail sysOneAdv).1 0).advertized = true
    ∧ att (connectToServer 0 drvFail sysOneAdv).1 0 = true
    ∧ RadioOp.connect "aa"
        ∈ (loopTick 1 (fun _ => drvFail) (connectToServer 0 drvFail sysOneAdv).1).2 := by
  have hmain := claim6_failed_connect_frame sysOneAdv 0 drvFail (by decide) (by decide)
    (Or.inl rfl)
  refine ⟨hmain.2.2.2.2.1, (hmain.2.2.2.2.2 rfl).1, ?_⟩
  exact (hmain.2.2.2.2.2 rfl).2 1 (fun _ => drvFail) (by decide)

/-- Claim C7 counterexample: a successful connect whose driver reports the
button characteristic without notification support still binds pRemChar to
it — the binding does not require canNotify, contrary to the claim. -/
theorem claim7_cx_bound_without_cannotify :
    drvOkBtnNoNotify.canNotify = false
    ∧ (getTag (connectToServer 0 drvOkBtnNoNotify sysOneAdv).1 0).pRemChar = some 9
    ∧ (getTag (connectToServer 0 drvOkBtnNoNotify sysOneAdv).1 0).connected = true := by
  decide

/-- Claim C7 amended: after a successful connect, battery read and button
subscription are best effort — for every combination of GATT outcomes the
entry stays connected and the attempt issues exactly its one connect
operation (no disconnect); when the button service is found, pRemChar is
assigned the characteristic lookup result (none when the characteristic is
absent) regardless of notification support, which only gates the
subscribe; when the service is absent, pRemChar keeps its previous value;
no other field and no other entry changes. -/
theorem claim7_best_effort_binding (s : Sys) (i : Nat) (d : DrvOutcome)
    (hi : i < s.tags.length) (hr : d.res = true) (hc : d.isConn = true) :
    ((getTag (connectToServer i d s).1 i).connected = true)
    ∧ ((connectToServer i d s).2 = [RadioOp.connect (getTag s i).addr])
    ∧ (d.btnSvc = true → (getTag (connectToServer i d s).1 i).pRemChar = d.btnChar)
    ∧ (d.btnSvc = false →
        (getTag (connectToServer i d s).1 i).pRemChar = (getTag s i).pRemChar)
    ∧ ((getTag (connectToServer i d s).1 i).advertized = (getTag s i).advertized)
    ∧ ((getTag (connectToServer i d s).1 i).oldmillis = (getTag s i).oldmillis)
    ∧ (∀ j, j ≠ i → getTag (connectToServer i d s).1 j = getTag s j) := by
  obtain ⟨hne, hself⟩ := connectToServer_getTag s i d hi
  refine ⟨?_, connectToServer_trace i d s, ?_, ?_, ?_, ?_, hne⟩
  · rw [hself, tagAfterConnect_connected, hc]
  · intro hb
    rw [hself, tagAfterConnect_success_btn _ _ hr hc hb]
  · intro hb
    rw [hself, tagAfterConnect_success_nobtn _ _ hr hc hb]
  · rw [hself, tagAfterConnect_advertized]
  · rw [hself, tagAfterConnect_oldmillis]

/-- Claim C7 amended witness: a characteristic without notification
support is still bound and the tag stays connected. -/
theorem claim7_best_effort_binding_w :
    (getTag (connectToServer 0 drvOkBtnNoNotify sysOneAdv).1 0).connected = true
    ∧ (getTag (connectToServer 0 drvOkBtnNoNotify sysOneAdv).1 0).pRemChar
        = drvOkBtnNoNotify.btnChar := by
  have hmain := claim7_best_effort_binding sysOneAdv 0 drvOkBtnNoNotify (by decide) rfl rfl
  exact ⟨hmain.1, hmain.2.2.1 rfl⟩

/-- Claim C8 counterexample: a loop pass whose 5 second connect timer has
not fired leaves the presence indicator untouched even though an entry is
advertized, so the indicator is not recomputed once per 100 msec tick as
claimed. -/
theorem claim8_cx_led_not_each_tick :
    sysLate.tags.any Tag.advertized = true
    ∧ (loopTick 5 (fun _ => drvFail) sysLate).1.led = false := by
  decide

/-- Claim C8 amended: the presence indicator is recomputed only on loop
passes whose 5 second connect timer fired; on those it is set active
exactly when at least one entry is advertized (connected or not), and on
every other pass it keeps its previous value. -/
theorem claim8_led_on_timer_tick (n : Nat) (drv : Nat → DrvOutcome) (s : Sys) :
    (n % U32 > s.newcontime →
      (loopTick n drv s).1.led = s.tags.any Tag.advertized)
    ∧ (¬ n % U32 > s.newcontime → (loopTick n drv s).1.led = s.led) := by
  have hl := loopTick_led n drv s
  constructor
  · intro hf
    rw [hl, if_pos hf]
  · intro hf
    rw [hl, if_neg hf]

/-- Claim C8 amended witness: a fired pass computes the indicator from the
advertized flags, an unfired pass leaves it alone. -/
theorem claim8_led_on_timer_tick_w :
    (loopTick 1 (fun _ => drvFail) sysOneAdv).1.led = sysOneAdv.tags.any Tag.advertized
    ∧ (loopTick 5 (fun _ => drvFail) sysLate).1.led = sysLate.led :=
  ⟨(claim8_led_on_timer_tick 1 (fun _ => drvFail) sysOneAdv).1 (by decide),
   (claim8_led_on_timer_tick 5 (fun _ => drvFail) sysLate).2 (by decide)⟩

/-- Claim C9: a notification whose characteristic matches no entry's
pRemChar is discarded silently — the whole state, every field of every
entry included, is unchanged; a notification matching the first entry with
that handle changes at most that entry's oldmillis field, leaving its
other fields and every other entry unchanged. -/
theorem claim9_notification_frame :
    (∀ (s : Sys) (h n : Nat), (∀ u ∈ s.tags, u.pRemChar ≠ some h) →
      (notifyCallback h n s).1 = s)
    ∧ (∀ (pre : List Tag) (t0 : Tag) (post : List Tag) (rs : Bool) (bt : Int)
        (bz led : Bool) (nc : Nat) (h n : Nat),
        (∀ u ∈ pre, u.pRemChar ≠ some h) → t0.pRemChar = some h →
        ∃ t1 : Tag,
          (notifyCallback h n (⟨pre ++ t0 :: post, rs, bt, bz, led, nc⟩ : Sys)).1.tags
            = pre ++ t1 :: post
          ∧ t1.addr = t0.addr ∧ t1.pRemChar = t0.pRemChar
          ∧ t1.advertized = t0.advertized ∧ t1.connected = t0.connected) := by
  constructor
  · exact fun s h n hnm => notifyCallback_no_match s h n hnm
  · intro pre t0 post rs bt bz led nc h n hnm ht
    rw [notifyCallback_match pre t0 post rs bt bz led nc h n hnm ht]
    by_cases hd : debounceOk t0.oldmillis (n % U32)
    · refine ⟨{ t0 with oldmillis := n % U32 }, ?_, rfl, rfl, rfl, rfl⟩
      rw [if_pos hd]
    · refine ⟨t0, ?_, rfl, rfl, rfl, rfl⟩
      rw [if_neg hd]

/-- Claim C9 witness: a notification with an unknown handle leaves the
state unchanged, a matched one changes only the matched entry. -/
theorem claim9_notification_frame_w :
    (notifyCallback 5 77 sysOneAdv).1 = sysOneAdv
    ∧ ∃ t1 : Tag,
        (notifyCallback 7 9999
          (⟨[] ++ (⟨"aa", some 7, true, 0, false⟩ : Tag) :: [],
            false, 0, false, false, 0⟩ : Sys)).1.tags = [] ++ t1 :: []
        ∧ t1.addr = "aa" ∧ t1.pRemChar = some 7
        ∧ t1.advertized = true ∧ t1.connected = false :=
  ⟨claim9_notification_frame.1 sysOneAdv 5 77 (by decide),
   claim9_notification_frame.2 [] ⟨"aa", some 7, true, 0, false⟩ [] false 0 false false 0
     7 9999 (by simp) rfl⟩

/-- Claim C10: the debounce is plain uint32 arithmetic newmillis >
oldmillis + 500 with oldmillis initialized to 0 for every configured
entry; hence a tag's very first notification arriving at now ≤ 500 msec
after boot is discarded though nothing was ever accepted; and the
comparison is not wrap safe once oldmillis + 500 overflows 2^32: at
oldmillis = 2^32 - 300 a press only 100 msec later is accepted. -/
theorem claim10_debounce_uint32 :
    (∀ t ∈ initSys.tags, t.oldmillis = 0)
    ∧ (∀ (n h : Nat) (pre : List Tag) (t0 : Tag) (post : List Tag) (rs : Bool) (bt : Int)
        (bz led : Bool) (nc : Nat),
        (∀ u ∈ pre, u.pRemChar ≠ some h) → t0.pRemChar = some h → t0.oldmillis = 0 →
        n ≤ 500 →
        (notifyCallback h n (⟨pre ++ t0 :: post, rs, bt, bz, led, nc⟩ : Sys)).1
          = ⟨pre ++ t0 :: post, rs, bt, bz, led, nc⟩)
    ∧ (debounceOk (U32 - 300) ((U32 - 300 + 100) % U32) = true
        ∧ 100 ≤ 500 ∧ U32 ≤ (U32 - 300) + 500) := by
  refine ⟨by decide, ?_, by decide⟩
  intro n h pre t0 post rs bt bz led nc hnm ht h0 hn
  have hd : debounceOk t0.oldmillis (n % U32) = false := by
    rw [h0]
    unfold debounceOk
    have hnm1 : n % U32 = n := Nat.mod_eq_of_lt (by unfold U32; omega)
    have hnm2 : (0 + 500) % U32 = 500 := by norm_num [U32]
    rw [hnm1, hnm2]
    exact decide_eq_false (by omega)
  rw [notifyCallback_match pre t0 post rs bt bz led nc h n hnm ht, if_neg (by rw [hd]; simp)]

/-- Claim C10 witness: the first press at 400 msec after boot is
discarded. -/
theorem claim10_debounce_uint32_w :
    (notifyCallback 7 400
      (⟨[(⟨"aa", some 7, true, 0, true⟩ : Tag)], false, 0, false, false, 0⟩ : Sys)).1
      = ⟨[(⟨"aa", some 7, true, 0, true⟩ : Tag)], false, 0, false, false, 0⟩ :=
  claim10_debounce_uint32.2.1 400 7 [] ⟨"aa", some 7, true, 0, true⟩ [] false 0 false false 0
    (by simp) rfl rfl (by norm_num)

end ItagModel
